import Mathlib

/-!
Verification of the real-time chat room coordination subsystem
(`src/services/socketService.ts`, `src/routes/chat.ts`, schema in
`src/database/schema.ts`).

The durable tables (`chat_rooms`, `room_participants`, `chat_messages`) are
embedded as lists of rows with serial ids; the in-memory socket registry
(`connectedUsers`, `userRooms` JavaScript `Map`s / `Set`s) as insertion-ordered
association lists; the socket.io room channels (`room:{id}`) and the
per-connection stream of delivered `new-message` events as functions to lists.
Each socket/REST handler becomes a state-transition function; a trace of
handler invocations is folded over the initial state.  Handlers run atomically
in trace order (the sequential interleaving of whole operations).
-/

namespace Chat

/-- An authenticated user as attached to a socket (`SocketUser` in
`socketService.ts`) and as a row of the `users` table. -/
structure SocketUser where
  id : Nat
  username : String
deriving Repr, DecidableEq

/-- A row of the `chat_rooms` table (`database/schema.ts`). -/
structure Room where
  id : Nat
  name : String
  description : Option String
  type : String
  createdBy : Nat
  isActive : Bool
  maxParticipants : Nat
deriving Repr, DecidableEq

/-- A row of the `room_participants` table.  Timestamps are logical `Nat`
instants supplied by the caller (`new Date()` at the call site). -/
structure Participant where
  id : Nat
  userId : Nat
  roomId : Nat
  role : String
  joinedAt : Nat
  lastSeenAt : Option Nat
  isActive : Bool
deriving Repr, DecidableEq

/-- A row of the `chat_messages` table. -/
structure Message where
  id : Nat
  content : String
  type : String
  senderId : Nat
  roomId : Nat
  replyToId : Option Nat
  isEdited : Bool
  isDeleted : Bool
deriving Repr, DecidableEq

/-- The durable store: the three chat tables plus the `users` table (read-only
for this subsystem) and the serial-id counters. -/
structure Db where
  usersTable : List SocketUser
  rooms : List Room
  participants : List Participant
  messages : List Message
  nextRoomId : Nat
  nextParticipantId : Nat
  nextMessageId : Nat
deriving Repr, DecidableEq

/-! JavaScript `Map` semantics over insertion-ordered association lists. -/

def mapFind {α : Type} : List (Nat × α) → Nat → Option α
  | [], _ => none
  | (k', v) :: rest, k => if k' = k then some v else mapFind rest k

def mapSet {α : Type} : List (Nat × α) → Nat → α → List (Nat × α)
  | [], k, v => [(k, v)]
  | (k', v') :: rest, k, v =>
    if k' = k then (k, v) :: rest else (k', v') :: mapSet rest k v

def mapErase {α : Type} : List (Nat × α) → Nat → List (Nat × α)
  | [], _ => []
  | (k', v') :: rest, k =>
    if k' = k then mapErase rest k else (k', v') :: mapErase rest k

/-! JavaScript `Set` semantics (insertion-ordered, duplicate-free). -/

def addIfAbsent (sid : Nat) (l : List Nat) : List Nat :=
  if sid ∈ l then l else l ++ [sid]

def removeSid (sid : Nat) : List Nat → List Nat
  | [] => []
  | s :: rest => if s = sid then removeSid sid rest else s :: removeSid sid rest

/-! Database queries used by the handlers (drizzle `select ... limit 1`
returns the first row in insertion order). -/

/-- `select from chatRooms where id = roomId and isActive = true limit 1`. -/
def findActiveRoom (db : Db) (roomId : Nat) : Option Room :=
  (db.rooms.filter (fun r => r.id == roomId && r.isActive)).head?

/-- `select from roomParticipants where roomId = ? and userId = ? limit 1`
(any row, active or not). -/
def findParticipantRow (db : Db) (roomId userId : Nat) : Option Participant :=
  (db.participants.filter (fun p => p.roomId == roomId && p.userId == userId)).head?

/-- Same query restricted to `isActive = true` (the membership check of
`handleSendMessage`). -/
def findActiveParticipant (db : Db) (roomId userId : Nat) : Option Participant :=
  (db.participants.filter
    (fun p => p.roomId == roomId && p.userId == userId && p.isActive)).head?

/-- `select from roomParticipants where roomId = ? and isActive = true`. -/
def activeParticipantRows (db : Db) (roomId : Nat) : List Participant :=
  db.participants.filter (fun p => p.roomId == roomId && p.isActive)

/-- The active members of a room in row-insertion (join) order — the
membership store's `ListActiveMembers`. -/
def listActiveMembers (db : Db) (roomId : Nat) : List Nat :=
  (activeParticipantRows db roomId).map (fun p => p.userId)

/-- `select from users where id = ? limit 1`. -/
def findUserById (db : Db) (userId : Nat) : Option SocketUser :=
  (db.usersTable.filter (fun u => u.id == userId)).head?

/-- `insert into roomParticipants values (...)` with a fresh serial id. -/
def insertParticipant (db : Db) (userId roomId : Nat) (role : String)
    (joinedAt : Nat) (lastSeenAt : Option Nat) : Db :=
  { db with
    participants := db.participants ++
      [⟨db.nextParticipantId, userId, roomId, role, joinedAt, lastSeenAt, true⟩],
    nextParticipantId := db.nextParticipantId + 1 }

/-- `update roomParticipants set (f) where (sel)` — rows are updated in place,
never deleted. -/
def updateParticipants (db : Db) (sel : Participant → Bool)
    (f : Participant → Participant) : Db :=
  { db with participants := db.participants.map (fun p => if sel p then f p else p) }

/-- The whole reachable state: durable store, the `SocketService` registry maps
`connectedUsers : Map<socketId, SocketUser>` and
`userRooms : Map<userId, Set<socketId>>`, the socket.io channel membership
(`socket.join`/`socket.leave` on `room:{id}`), and per-socket lists of
`new-message` events in delivery order. -/
@[ext]
structure ChatState where
  db : Db
  connectedUsers : List (Nat × SocketUser)
  userRooms : List (Nat × List Nat)
  socketRooms : Nat → List Nat
  inboxes : Nat → List Message

/-- The `connection` handler (socketService.ts): record the socket in
`connectedUsers` and add it to its user's `userRooms` set.  The transport
layer never hands out a socket id that is still live, so a connect for an
already-registered id does not occur; it is modelled as a no-op. -/
def connect (st : ChatState) (sid : Nat) (user : SocketUser) : ChatState :=
  if (mapFind st.connectedUsers sid).isSome then st
  else
    { st with
      connectedUsers := mapSet st.connectedUsers sid user,
      userRooms :=
        match mapFind st.userRooms user.id with
        | none => mapSet st.userRooms user.id [sid]
        | some l => mapSet st.userRooms user.id (addIfAbsent sid l) }

/-- The `disconnect` handler: drop the socket from `connectedUsers`, remove it
from its user's `userRooms` set (deleting the entry when it empties), and —
socket.io built-in behaviour — remove the socket from every channel.  The
handler's closure captures the user that connected this socket; while the
socket is live that user is exactly `connectedUsers.get(socket.id)`. -/
def disconnect (st : ChatState) (sid : Nat) : ChatState :=
  match mapFind st.connectedUsers sid with
  | none => st
  | some user =>
    { st with
      connectedUsers := mapErase st.connectedUsers sid,
      userRooms :=
        match mapFind st.userRooms user.id with
        | none => st.userRooms
        | some l =>
          if removeSid sid l = [] then mapErase st.userRooms user.id
          else mapSet st.userRooms user.id (removeSid sid l),
      socketRooms := fun r => removeSid sid (st.socketRooms r) }

/-- `socket.join("room:" + roomId)`. -/
def subscribeSocket (st : ChatState) (sid roomId : Nat) : ChatState :=
  { st with socketRooms := fun r =>
      if r = roomId then addIfAbsent sid (st.socketRooms r) else st.socketRooms r }

/-- `socket.leave("room:" + roomId)`. -/
def unsubscribeSocket (st : ChatState) (sid roomId : Nat) : ChatState :=
  { st with socketRooms := fun r =>
      if r = roomId then removeSid sid (st.socketRooms r) else st.socketRooms r }

/-- `io.to("room:" + roomId).emit("new-message", m)`: append `m` to the inbox
of every socket currently in the channel. -/
def deliverToRoom (st : ChatState) (roomId : Nat) (m : Message) : ChatState :=
  { st with inboxes := fun sid =>
      if sid ∈ st.socketRooms roomId then st.inboxes sid ++ [m] else st.inboxes sid }

/-- Payload of the `send-message` socket event. -/
structure SendData where
  roomId : Nat
  content : String
  type : Option String
  replyToId : Option Nat
deriving Repr, DecidableEq

inductive SendResult where
  | sent (m : Message)
  | notAMember
deriving Repr, DecidableEq

/-- `handleSendMessage` (socketService.ts 353–412): the only validation is the
active-membership lookup; then the message row is inserted (the serial id is
the persisted, ordering-defining id) and, after the insert, broadcast to every
socket currently in the room channel. -/
def handleSendMessage (st : ChatState) (user : SocketUser) (d : SendData) :
    ChatState × SendResult :=
  match findActiveParticipant st.db d.roomId user.id with
  | none => (st, .notAMember)
  | some _ =>
    let m : Message :=
      ⟨st.db.nextMessageId, d.content, d.type.getD "text", user.id, d.roomId,
        d.replyToId, false, false⟩
    let db' := { st.db with
      messages := st.db.messages ++ [m],
      nextMessageId := st.db.nextMessageId + 1 }
    (deliverToRoom { st with db := db' } d.roomId m, .sent m)

inductive JoinResult where
  | joined
  | roomNotFound
  | accessDenied
deriving Repr, DecidableEq

/-- `handleJoinRoom` (socketService.ts 251–324): look up the active room; a
user with no participant row is rejected only for `private` rooms, otherwise a
fresh `member` row is inserted; an existing row (active or not) has
`lastSeenAt`/`isActive` refreshed (keyed by the row id); finally the socket
joins the channel. -/
def handleJoinRoom (st : ChatState) (user : SocketUser) (sid roomId now : Nat) :
    ChatState × JoinResult :=
  match findActiveRoom st.db roomId with
  | none => (st, .roomNotFound)
  | some room =>
    match findParticipantRow st.db roomId user.id with
    | none =>
      if room.type == "private" then (st, .accessDenied)
      else
        let db' := insertParticipant st.db user.id roomId "member" now (some now)
        (subscribeSocket { st with db := db' } sid roomId, .joined)
    | some p =>
      let db' := updateParticipants st.db (fun q => q.id == p.id)
        (fun q => { q with lastSeenAt := some now, isActive := true })
      (subscribeSocket { st with db := db' } sid roomId, .joined)

/-- `handleLeaveRoom` (socketService.ts 326–351): the socket leaves the
channel, then every participant row of (room, user) is marked inactive with a
refreshed `lastSeenAt`; the handler always reports success. -/
def handleLeaveRoom (st : ChatState) (user : SocketUser) (sid roomId now : Nat) :
    ChatState :=
  let st1 := unsubscribeSocket st sid roomId
  { st1 with db := (updateParticipants st1.db
      (fun q => q.roomId == roomId && q.userId == user.id)
      (fun q => { q with lastSeenAt := some now, isActive := false })) }

/-- The direct-message lookup key built by `handlePrivateMessage`
(socketService.ts 432): plain concatenation of the two usernames in
(sender, recipient) order. -/
def dmRoomName (sender recipient : SocketUser) : String :=
  "DM: " ++ sender.username ++ " & " ++ recipient.username

/-- The create-or-get of the direct room inside `handlePrivateMessage`
(socketService.ts 434–473): look the room up by its name-derived key and kind
`direct`; when absent, insert the room (capacity 2) and both `member`
participant rows. -/
def resolveDirectRoom (db : Db) (sender recipient : SocketUser) (now : Nat) :
    Db × Room :=
  let roomName := dmRoomName sender recipient
  match (db.rooms.filter (fun r => r.name == roomName && r.type == "direct")).head? with
  | some room => (db, room)
  | none =>
    let room : Room :=
      ⟨db.nextRoomId, roomName, some "Direct message conversation", "direct",
        sender.id, true, 2⟩
    let db1 := { db with rooms := db.rooms ++ [room], nextRoomId := db.nextRoomId + 1 }
    let db2 := { db1 with
      participants := db1.participants ++
        [⟨db1.nextParticipantId, sender.id, room.id, "member", now, none, true⟩,
         ⟨db1.nextParticipantId + 1, recipient.id, room.id, "member", now, none, true⟩],
      nextParticipantId := db1.nextParticipantId + 2 }
    (db2, room)

inductive PrivateMessageResult where
  | ok (roomId : Nat) (send : SendResult)
  | recipientNotFound
deriving Repr, DecidableEq

/-- `handlePrivateMessage` (socketService.ts 414–504): check the recipient
exists, resolve or create the direct room, send through `handleSendMessage`,
then make each of the recipient's live sockets join the room channel. -/
def handlePrivateMessage (st : ChatState) (user : SocketUser) (recipientId : Nat)
    (content : String) (now : Nat) : ChatState × PrivateMessageResult :=
  match findUserById st.db recipientId with
  | none => (st, .recipientNotFound)
  | some recipient =>
    let dbRoom := resolveDirectRoom st.db user recipient now
    let sent := handleSendMessage { st with db := dbRoom.1 } user
      ⟨dbRoom.2.id, content, some "text", none⟩
    let recipSids := (mapFind sent.1.userRooms recipientId).getD []
    (recipSids.foldl (fun s sid => subscribeSocket s sid dbRoom.2.id) sent.1,
      .ok dbRoom.2.id sent.2)

inductive RestJoinResult where
  | ok
  | roomNotFound
  | roomFull
  | serverError
deriving Repr, DecidableEq

/-- `POST /rooms/:id/join` (chat.ts 119–209).  The capacity check runs
`select({ count: roomParticipants.id })` filtered to the room's active rows:
drizzle returns one row per matching participant whose `count` field is that
participant's serial id; the handler destructures the FIRST row — so `count`
is the first active participant's row id, and an empty result throws (the
catch-all returns a 500).  That id, not the number of rows, is compared with
`room.maxParticipants`. -/
def restJoinRoom (db : Db) (userId roomId now : Nat) : Db × RestJoinResult :=
  match findActiveRoom db roomId with
  | none => (db, .roomNotFound)
  | some room =>
    match findParticipantRow db roomId userId with
    | some p =>
      if p.isActive then (db, .ok)
      else
        (updateParticipants db (fun q => q.userId == userId && q.roomId == roomId)
          (fun q => { q with isActive := true, joinedAt := now }), .ok)
    | none =>
      match activeParticipantRows db roomId with
      | [] => (db, .serverError)
      | r :: _ =>
        if room.maxParticipants ≤ r.id then (db, .roomFull)
        else (insertParticipant db userId roomId "member" now none, .ok)

inductive RestLeaveResult where
  | ok
deriving Repr, DecidableEq

/-- `POST /rooms/:id/leave` (chat.ts 212–245): unconditionally mark the
(user, room) participant rows inactive and report success; nothing is deleted
and the socket layer is not touched. -/
def restLeaveRoom (db : Db) (userId roomId : Nat) : Db × RestLeaveResult :=
  (updateParticipants db (fun q => q.userId == userId && q.roomId == roomId)
    (fun q => { q with isActive := false }), .ok)

inductive CreateRoomResult where
  | created (room : Room)
  | validationFailed
  | serverError
deriving Repr, DecidableEq

/-- The express-validator checks on `POST /rooms`: name 1–255 characters,
description up to 1000, type (when given) `public` or `private`. -/
def validRoomParams (name : String) (description : Option String)
    (ty : Option String) : Bool :=
  decide (1 ≤ name.length) && decide (name.length ≤ 255) &&
  (match description with | none => true | some d => decide (d.length ≤ 1000)) &&
  (match ty with | none => true | some t => t == "public" || t == "private")

/-- `POST /rooms` (chat.ts 56–116): after validation, the room row and the
creator's admin participant row are inserted by two separate awaited
statements with no enclosing transaction.  `memberInsertOk` models whether the
second insert succeeds at the persistence layer; when it fails the route
answers 500 but the already-inserted room row remains. -/
def restCreateRoom (db : Db) (userId : Nat) (name : String)
    (description : Option String) (ty : Option String)
    (maxParticipants : Option Nat) (now : Nat) (memberInsertOk : Bool) :
    Db × CreateRoomResult :=
  if validRoomParams name description ty then
    let room : Room :=
      ⟨db.nextRoomId, name, description, ty.getD "public", userId, true,
        maxParticipants.getD 50⟩
    let db1 := { db with rooms := db.rooms ++ [room], nextRoomId := db.nextRoomId + 1 }
    if memberInsertOk then
      (insertParticipant db1 userId room.id "admin" now none, .created room)
    else (db1, .serverError)
  else (db, .validationFailed)

/-- `getOnlineUsersInRoom` (socketService.ts 582–595): the sockets of the
`room:{id}` channel, resolved through `connectedUsers`. -/
def getOnlineUsersInRoom (st : ChatState) (roomId : Nat) : List SocketUser :=
  (st.socketRooms roomId).filterMap (fun sid => mapFind st.connectedUsers sid)

/-- `getUserConnectionCount` (socketService.ts 656–659). -/
def getUserConnectionCount (st : ChatState) (userId : Nat) : Nat :=
  match mapFind st.userRooms userId with
  | none => 0
  | some l => l.length

/-- One inbound operation of the system, as dispatched by
`setupEventHandlers` and the REST router.  Socket events carry the socket id;
the owning user is the one registered at connect time. -/
inductive Ev where
  | connect (sid : Nat) (user : SocketUser)
  | disconnect (sid : Nat)
  | joinRoom (sid roomId now : Nat)
  | leaveRoom (sid roomId now : Nat)
  | sendMsg (sid : Nat) (d : SendData)
  | privateMsg (sid recipientId : Nat) (content : String) (now : Nat)
  | restCreate (userId : Nat) (name : String) (description : Option String)
      (ty : Option String) (maxParticipants : Option Nat) (now : Nat)
      (memberInsertOk : Bool)
  | restJoin (userId roomId now : Nat)
  | restLeave (userId roomId : Nat)

/-- The transition function: socket events act on behalf of the user recorded
for their socket (the handler closure's `socket.data.user`); events from
unknown sockets do nothing. -/
def step (st : ChatState) (ev : Ev) : ChatState :=
  match ev with
  | .connect sid user => connect st sid user
  | .disconnect sid => disconnect st sid
  | .joinRoom sid roomId now =>
    match mapFind st.connectedUsers sid with
    | none => st
    | some user => (handleJoinRoom st user sid roomId now).1
  | .leaveRoom sid roomId now =>
    match mapFind st.connectedUsers sid with
    | none => st
    | some user => handleLeaveRoom st user sid roomId now
  | .sendMsg sid d =>
    match mapFind st.connectedUsers sid with
    | none => st
    | some user => (handleSendMessage st user d).1
  | .privateMsg sid recipientId content now =>
    match mapFind st.connectedUsers sid with
    | none => st
    | some user => (handlePrivateMessage st user recipientId content now).1
  | .restCreate userId name description ty maxP now ok =>
    { st with db := (restCreateRoom st.db userId name description ty maxP now ok).1 }
  | .restJoin userId roomId now =>
    { st with db := (restJoinRoom st.db userId roomId now).1 }
  | .restLeave userId roomId =>
    { st with db := (restLeaveRoom st.db userId roomId).1 }

/-- Fresh deployment: empty tables except the externally-owned `users` table,
serial counters at 1, no live sockets. -/
def initState (usersList : List SocketUser) : ChatState :=
  { db := ⟨usersList, [], [], [], 1, 1, 1⟩,
    connectedUsers := [], userRooms := [],
    socketRooms := fun _ => [], inboxes := fun _ => [] }

/-- Run a trace of operations from the fresh deployment. -/
def runTrace (usersList : List SocketUser) (evs : List Ev) : ChatState :=
  evs.foldl step (initState usersList)

/-- The identity owning a live socket, if any (a view over `connectedUsers`). -/
def ownerId (st : ChatState) (sid : Nat) : Option Nat :=
  (mapFind st.connectedUsers sid).map (fun v => v.id)

/-! ### Lemmas about the map and set helpers -/

theorem mapFind_mapSet_self {α : Type} (m : List (Nat × α)) (k : Nat) (v : α) :
    mapFind (mapSet m k v) k = some v := by
  induction m with
  | nil => simp [mapSet, mapFind]
  | cons hd tl ih =>
    obtain ⟨k₀, v₀⟩ := hd
    by_cases h₀ : k₀ = k
    · simp [mapSet, mapFind, h₀]
    · simp [mapSet, mapFind, h₀, ih]

theorem mapFind_mapSet_ne {α : Type} (m : List (Nat × α)) {k k' : Nat} (v : α)
    (h : ¬ k = k') : mapFind (mapSet m k v) k' = mapFind m k' := by
  induction m with
  | nil => simp [mapSet, mapFind, h]
  | cons hd tl ih =>
    obtain ⟨k₀, v₀⟩ := hd
    by_cases h₀ : k₀ = k
    · have h₁ : ¬ k₀ = k' := fun hh => h (h₀.symm.trans hh)
      simp [mapSet, mapFind, h₀, h, h₁]
    · by_cases h₁ : k₀ = k'
      · have h₂ : ¬ k' = k := fun hh => h hh.symm
        simp [mapSet, mapFind, h₀, h₁, h₂]
      · simp [mapSet, mapFind, h₀, h₁, ih]

theorem mapFind_mapSet {α : Type} (m : List (Nat × α)) (k k' : Nat) (v : α) :
    mapFind (mapSet m k v) k' = if k = k' then some v else mapFind m k' := by
  by_cases h : k = k'
  · rw [if_pos h, ← h, mapFind_mapSet_self]
  · rw [if_neg h, mapFind_mapSet_ne m v h]

theorem mapFind_mapErase_self {α : Type} (m : List (Nat × α)) (k : Nat) :
    mapFind (mapErase m k) k = none := by
  induction m with
  | nil => simp [mapErase, mapFind]
  | cons hd tl ih =>
    obtain ⟨k₀, v₀⟩ := hd
    by_cases h₀ : k₀ = k
    · simp [mapErase, h₀, ih]
    · simp [mapErase, mapFind, h₀, ih]

theorem mapFind_mapErase_ne {α : Type} (m : List (Nat × α)) {k k' : Nat}
    (h : ¬ k = k') : mapFind (mapErase m k) k' = mapFind m k' := by
  induction m with
  | nil => simp [mapErase]
  | cons hd tl ih =>
    obtain ⟨k₀, v₀⟩ := hd
    by_cases h₀ : k₀ = k
    · have h₁ : ¬ k₀ = k' := fun hh => h (h₀.symm.trans hh)
      simp [mapErase, mapFind, h₀, h₁, h, ih]
    · by_cases h₁ : k₀ = k'
      · have h₂ : ¬ k' = k := fun hh => h hh.symm
        simp [mapErase, mapFind, h₀, h₁, h₂]
      · simp [mapErase, mapFind, h₀, h₁, ih]

theorem mapFind_mapErase {α : Type} (m : List (Nat × α)) (k k' : Nat) :
    mapFind (mapErase m k) k' = if k = k' then none else mapFind m k' := by
  by_cases h : k = k'
  · rw [if_pos h, ← h, mapFind_mapErase_self]
  · rw [if_neg h, mapFind_mapErase_ne m h]

theorem mapErase_sublist {α : Type} (m : List (Nat × α)) (k : Nat) :
    (mapErase m k).Sublist m := by
  induction m with
  | nil => simp [mapErase]
  | cons hd tl ih =>
    obtain ⟨k₀, v₀⟩ := hd
    by_cases h₀ : k₀ = k
    · rw [mapErase, if_pos h₀]
      exact ih.cons (k₀, v₀)
    · rw [mapErase, if_neg h₀]
      exact ih.cons₂ (k₀, v₀)

theorem mapFind_eq_none_iff {α : Type} (m : List (Nat × α)) (k : Nat) :
    mapFind m k = none ↔ k ∉ m.map Prod.fst := by
  induction m with
  | nil => simp [mapFind]
  | cons hd tl ih =>
    obtain ⟨k₀, v₀⟩ := hd
    by_cases h₀ : k₀ = k
    · subst h₀; simp [mapFind]
    · simp only [mapFind, if_neg h₀, ih, List.map_cons, List.mem_cons]
      constructor
      · intro h hm
        rcases hm with hm | hm
        · exact h₀ hm.symm
        · exact h hm
      · intro h hm
        exact h (Or.inr hm)

theorem keys_mapSet {α : Type} (m : List (Nat × α)) (k : Nat) (v : α) :
    (mapSet m k v).map Prod.fst =
      if k ∈ m.map Prod.fst then m.map Prod.fst else m.map Prod.fst ++ [k] := by
  induction m with
  | nil => simp [mapSet]
  | cons hd tl ih =>
    obtain ⟨k₀, v₀⟩ := hd
    by_cases h₀ : k₀ = k
    · subst h₀; simp [mapSet]
    · simp only [mapSet, if_neg h₀, List.map_cons, List.mem_cons, ih]
      have hne : ¬ k = k₀ := fun h => h₀ h.symm
      by_cases hk : k ∈ tl.map Prod.fst
      · simp [hk, hne]
      · simp [hk, hne]

def keysNodup {α : Type} (m : List (Nat × α)) : Prop :=
  (m.map Prod.fst).Nodup

theorem keysNodup_mapSet {α : Type} {m : List (Nat × α)} (k : Nat) (v : α)
    (h : keysNodup m) : keysNodup (mapSet m k v) := by
  unfold keysNodup at h ⊢
  rw [keys_mapSet]
  by_cases hk : k ∈ m.map Prod.fst
  · simpa [hk]
  · rw [if_neg hk]
    rw [List.nodup_append]
    refine ⟨h, List.nodup_singleton k, ?_⟩
    intro a ha hb
    rw [List.mem_singleton] at hb
    subst hb
    exact hk ha

theorem keysNodup_mapErase {α : Type} {m : List (Nat × α)} (k : Nat)
    (h : keysNodup m) : keysNodup (mapErase m k) :=
  List.Nodup.sublist (List.Sublist.map Prod.fst (mapErase_sublist m k)) h

theorem mem_removeSid {s sid : Nat} {l : List Nat} :
    s ∈ removeSid sid l ↔ s ∈ l ∧ s ≠ sid := by
  induction l with
  | nil => simp [removeSid]
  | cons hd tl ih =>
    by_cases h₀ : hd = sid
    · rw [removeSid, if_pos h₀, ih]
      subst h₀
      simp only [List.mem_cons]
      constructor
      · rintro ⟨hs, hn⟩; exact ⟨Or.inr hs, hn⟩
      · rintro ⟨hs | hs, hn⟩
        · exact absurd hs hn
        · exact ⟨hs, hn⟩
    · rw [removeSid, if_neg h₀]
      simp only [List.mem_cons, ih]
      constructor
      · rintro (rfl | ⟨hs, hn⟩)
        · exact ⟨Or.inl rfl, h₀⟩
        · exact ⟨Or.inr hs, hn⟩
      · rintro ⟨rfl | hs, hn⟩
        · exact Or.inl rfl
        · exact Or.inr ⟨hs, hn⟩

theorem removeSid_eq_self_of_not_mem {sid : Nat} {l : List Nat} (h : sid ∉ l) :
    removeSid sid l = l := by
  induction l with
  | nil => rfl
  | cons hd tl ih =>
    simp only [List.mem_cons, not_or] at h
    rw [removeSid, if_neg (fun hh : hd = sid => h.1 hh.symm), ih h.2]

theorem not_mem_removeSid_self {sid : Nat} {l : List Nat} :
    sid ∉ removeSid sid l := fun h => (mem_removeSid.mp h).2 rfl

theorem removeSid_idem (sid : Nat) (l : List Nat) :
    removeSid sid (removeSid sid l) = removeSid sid l :=
  removeSid_eq_self_of_not_mem not_mem_removeSid_self

theorem removeSid_sublist (sid : Nat) (l : List Nat) :
    (removeSid sid l).Sublist l := by
  induction l with
  | nil => simp [removeSid]
  | cons hd tl ih =>
    by_cases h₀ : hd = sid
    · rw [removeSid, if_pos h₀]
      exact ih.cons hd
    · rw [removeSid, if_neg h₀]
      exact ih.cons₂ hd

theorem nodup_removeSid {sid : Nat} {l : List Nat} (h : l.Nodup) :
    (removeSid sid l).Nodup :=
  List.Nodup.sublist (removeSid_sublist sid l) h

theorem mem_addIfAbsent {s sid : Nat} {l : List Nat} :
    s ∈ addIfAbsent sid l ↔ s ∈ l ∨ s = sid := by
  unfold addIfAbsent
  by_cases h : sid ∈ l
  · simp only [if_pos h]
    refine ⟨Or.inl, fun hh => ?_⟩
    rcases hh with hh | hh
    · exact hh
    · exact hh ▸ h
  · simp [if_neg h]

theorem nodup_addIfAbsent {sid : Nat} {l : List Nat} (h : l.Nodup) :
    (addIfAbsent sid l).Nodup := by
  unfold addIfAbsent
  by_cases hm : sid ∈ l
  · simpa [hm]
  · rw [if_neg hm, List.nodup_append]
    refine ⟨h, List.nodup_singleton sid, ?_⟩
    intro a ha hb
    rw [List.mem_singleton] at hb
    subst hb
    exact hm ha

theorem addIfAbsent_ne_nil (sid : Nat) (l : List Nat) :
    addIfAbsent sid l ≠ [] := by
  unfold addIfAbsent
  by_cases hm : sid ∈ l
  · rw [if_pos hm]
    intro h; rw [h] at hm; exact absurd hm (List.not_mem_nil sid)
  · simp [if_neg hm]

/-! ### C1 — direct-message room resolution -/

/-- Concrete identities used by the counterexample probes. -/
def alice : SocketUser := ⟨1, "alice"⟩

def bob : SocketUser := ⟨2, "bob"⟩

/-- First contact: alice resolves her DM room with bob on a fresh store. -/
def dmProbeFirst : Db × Room :=
  resolveDirectRoom (initState [alice, bob]).db alice bob 0

/-- Then bob resolves his DM room with alice on the resulting store. -/
def dmProbeSecond : Db × Room :=
  resolveDirectRoom dmProbeFirst.1 bob alice 1

/-- C1 counterexample: the lookup key `DM: alice & bob` differs from
`DM: bob & alice`, so the two directions create two distinct `direct` rooms
for the same unordered pair {1, 2} — the claimed symmetry and the at-most-one
`direct`-room-per-pair property are both false on the code. -/
theorem resolveDirectRoom_not_symmetric :
    dmProbeFirst.2.id = 1 ∧ dmProbeSecond.2.id = 2 ∧
    dmProbeFirst.2.id ≠ dmProbeSecond.2.id ∧
    (dmProbeSecond.1.rooms.filter (fun r => r.type == "direct")).length = 2 ∧
    listActiveMembers dmProbeSecond.1 1 = [1, 2] ∧
    listActiveMembers dmProbeSecond.1 2 = [2, 1] := by
  decide

/-- C1 (amended): resolution is deterministic for a fixed (sender, recipient)
order — a repeated `resolveDirectRoom` for the same ordered pair returns the
same `Room` row and leaves the store unchanged, so no duplicate is created by
repeated calls in one direction. -/
theorem resolveDirectRoom_deterministic (db : Db) (a b : SocketUser)
    (now now' : Nat) :
    resolveDirectRoom (resolveDirectRoom db a b now).1 a b now' =
      resolveDirectRoom db a b now := by
  cases hh : (db.rooms.filter
      (fun r => r.name == dmRoomName a b && r.type == "direct")).head? with
  | some room =>
    simp [resolveDirectRoom, hh]
  | none =>
    have hfilter : db.rooms.filter
        (fun r => r.name == dmRoomName a b && r.type == "direct") = [] :=
      List.head?_eq_none_iff.mp hh
    simp only [resolveDirectRoom, hh]
    simp [List.filter_append, hfilter]

/-! ### C4 — send by a non-member is rejected without effect -/

/-- C4: when the sender has no active membership row in the target room,
`handleSendMessage` reports the not-a-member failure and returns the state
entirely unchanged — no message row is inserted and no inbox receives
anything. -/
theorem send_without_membership_rejected (st : ChatState) (user : SocketUser)
    (d : SendData) (h : findActiveParticipant st.db d.roomId user.id = none) :
    handleSendMessage st user d = (st, SendResult.notAMember) := by
  simp [handleSendMessage, h]

/-- Witness for C4: a user who never joined room 1 sends into it. -/
theorem send_without_membership_rejected_witness :
    handleSendMessage (initState [⟨3, "carol"⟩]) ⟨3, "carol"⟩ ⟨1, "hi", none, none⟩ =
      (initState [⟨3, "carol"⟩], SendResult.notAMember) :=
  send_without_membership_rejected _ _ _ (by decide)

/-! ### C5 — no payload validation in send -/

/-- A store with two rooms: message 1 lives in room 1, while user 1 is an
active member of room 2 only. -/
def replyProbeDb : Db :=
  { usersTable := [alice],
    rooms := [⟨1, "general", none, "public", 1, true, 50⟩,
              ⟨2, "random", none, "public", 1, true, 50⟩],
    participants := [⟨1, 1, 2, "member", 0, none, true⟩],
    messages := [⟨1, "x", "text", 1, 1, none, false, false⟩],
    nextRoomId := 3, nextParticipantId := 2, nextMessageId := 2 }

def replyProbeState : ChatState :=
  { db := replyProbeDb, connectedUsers := [], userRooms := [],
    socketRooms := fun _ => [], inboxes := fun _ => [] }

/-- C5 counterexample: a send into room 2 whose `replyToId` references
message 1 — a message of a DIFFERENT room — is accepted and persisted with
that dangling cross-room reference; no `InvalidReply` (nor any
`InvalidContent`) failure path exists in `handleSendMessage`. -/
theorem send_cross_room_reply_accepted :
    (handleSendMessage replyProbeState alice ⟨2, "hi", none, some 1⟩).2 =
      SendResult.sent ⟨2, "hi", "text", 1, 2, some 1, false, false⟩ ∧
    (handleSendMessage replyProbeState alice ⟨2, "hi", none, some 1⟩).1.db.messages =
      replyProbeDb.messages ++ [⟨2, "hi", "text", 1, 2, some 1, false, false⟩] := by
  decide

/-- C5 (amended): for an active member the operation validates nothing about
the payload: whatever the content (any length) and whatever the `replyToId`
(absent, dangling, or pointing into another room), the message row is
persisted with exactly that content and reply reference, and the send
succeeds. -/
theorem send_persists_any_payload (st : ChatState) (user : SocketUser)
    (d : SendData) (p : Participant)
    (h : findActiveParticipant st.db d.roomId user.id = some p) :
    (handleSendMessage st user d).2 =
      SendResult.sent ⟨st.db.nextMessageId, d.content, d.type.getD "text",
        user.id, d.roomId, d.replyToId, false, false⟩ ∧
    (handleSendMessage st user d).1.db.messages = st.db.messages ++
      [⟨st.db.nextMessageId, d.content, d.type.getD "text", user.id, d.roomId,
        d.replyToId, false, false⟩] := by
  simp [handleSendMessage, h, deliverToRoom]

/-! ### C6 — the REST join capacity check -/

/-- A room of capacity 3 that is exactly full: active participant rows with
serial ids 1, 2, 3 for users 11, 12, 13. -/
def capProbeDb : Db :=
  { usersTable := [⟨11, "u11"⟩, ⟨12, "u12"⟩, ⟨13, "u13"⟩, ⟨14, "u14"⟩],
    rooms := [⟨1, "general", none, "public", 11, true, 3⟩],
    participants :=
      [⟨1, 11, 1, "admin", 0, none, true⟩,
       ⟨2, 12, 1, "member", 0, none, true⟩,
       ⟨3, 13, 1, "member", 0, none, true⟩],
    messages := [], nextRoomId := 2, nextParticipantId := 4, nextMessageId := 1 }

/-- The same room holding a single active member whose participant row has
serial id 7 (earlier rows of other rooms consumed ids 1–6). -/
def capProbeDb2 : Db :=
  { capProbeDb with
    participants := [⟨7, 11, 1, "admin", 0, none, true⟩],
    nextParticipantId := 8 }

/-- C6: the `POST /rooms/:id/join` capacity check compares the FIRST active
participant row's serial id — not the number of active members — against
`maxParticipants`.  Both directions of the claimed iff fail on the code: a
full room (3 active members, capacity 3, first row id 1) admits a fourth
member, and a near-empty room (1 active member whose row id is 7, capacity 3)
spuriously reports `RoomFull`.  The surrounding comment (`Check room
capacity`), the field name `count` and the error message (`Room is at maximum
capacity`) all document the intended count semantics, so this is a defect in
the code. -/
theorem restJoinRoom_capacity_check_broken :
    ((restJoinRoom capProbeDb 14 1 5).2 = RestJoinResult.ok ∧
      (listActiveMembers (restJoinRoom capProbeDb 14 1 5).1 1).length = 4 ∧
      (listActiveMembers capProbeDb 1).length = 3) ∧
    ((restJoinRoom capProbeDb2 14 1 5).2 = RestJoinResult.roomFull ∧
      (listActiveMembers capProbeDb2 1).length = 1) := by
  decide

/-! ### C7 — room creation is not atomic -/

/-- Create a room on a fresh store with the admin-membership insert failing at
the persistence layer (there is no transaction around the two inserts). -/
def createProbe : Db × CreateRoomResult :=
  restCreateRoom (initState []).db 1 "general" none (some "public") (some 10) 0 false

/-- C7 counterexample: when the second insert fails, the already-committed
room row survives with no membership at all — a Room without its creator's
admin Membership, contradicting the claimed all-or-nothing behaviour. -/
theorem createRoom_partial_state :
    createProbe.2 = CreateRoomResult.serverError ∧
    createProbe.1.rooms.length = 1 ∧
    createProbe.1.participants = [] := by
  decide

/-- C7 (amended): `POST /rooms` performs two separate inserts with no
transaction.  When both succeed, the room row and the creator's admin
membership row are both appended; when the membership insert fails, the route
reports a server error but the room row remains while no membership row is
written — partial state is possible. -/
theorem createRoom_two_separate_inserts (db : Db) (uid : Nat) (name : String)
    (descr : Option String) (ty : Option String) (maxP : Option Nat) (now : Nat)
    (h : validRoomParams name descr ty = true) :
    ((restCreateRoom db uid name descr ty maxP now true).2 =
      CreateRoomResult.created
        ⟨db.nextRoomId, name, descr, ty.getD "public", uid, true, maxP.getD 50⟩ ∧
    (restCreateRoom db uid name descr ty maxP now true).1.rooms = db.rooms ++
      [⟨db.nextRoomId, name, descr, ty.getD "public", uid, true, maxP.getD 50⟩] ∧
    (restCreateRoom db uid name descr ty maxP now true).1.participants =
      db.participants ++
        [⟨db.nextParticipantId, uid, db.nextRoomId, "admin", now, none, true⟩]) ∧
    ((restCreateRoom db uid name descr ty maxP now false).2 =
      CreateRoomResult.serverError ∧
    (restCreateRoom db uid name descr ty maxP now false).1.rooms = db.rooms ++
      [⟨db.nextRoomId, name, descr, ty.getD "public", uid, true, maxP.getD 50⟩] ∧
    (restCreateRoom db uid name descr ty maxP now false).1.participants =
      db.participants) := by
  simp [restCreateRoom, h, insertParticipant]

/-- Witness for C7 (amended) at concrete arguments. -/
theorem createRoom_two_separate_inserts_witness :
    ((restCreateRoom (initState []).db 1 "general" none (some "public") (some 10) 0 true).2 =
      CreateRoomResult.created ⟨1, "general", none, "public", 1, true, 10⟩ ∧
    (restCreateRoom (initState []).db 1 "general" none (some "public") (some 10) 0 true).1.rooms =
      (initState []).db.rooms ++ [⟨1, "general", none, "public", 1, true, 10⟩] ∧
    (restCreateRoom (initState []).db 1 "general" none (some "public") (some 10) 0 true).1.participants =
      (initState []).db.participants ++ [⟨1, 1, 1, "admin", 0, none, true⟩]) ∧
    ((restCreateRoom (initState []).db 1 "general" none (some "public") (some 10) 0 false).2 =
      CreateRoomResult.serverError ∧
    (restCreateRoom (initState []).db 1 "general" none (some "public") (some 10) 0 false).1.rooms =
      (initState []).db.rooms ++ [⟨1, "general", none, "public", 1, true, 10⟩] ∧
    (restCreateRoom (initState []).db 1 "general" none (some "public") (some 10) 0 false).1.participants =
      (initState []).db.participants) :=
  createRoom_two_separate_inserts (initState []).db 1 "general" none (some "public")
    (some 10) 0 (by decide)

/-! ### C8 — the socket join-room operation auto-joins -/

def joinProbeRoom : Room := ⟨1, "general", none, "public", 1, true, 10⟩

/-- Bob is connected on socket 10 but has never had a participant row in
room 1. -/
def joinProbeDb : Db :=
  { usersTable := [alice, bob],
    rooms := [joinProbeRoom],
    participants := [⟨1, 1, 1, "admin", 0, none, true⟩],
    messages := [], nextRoomId := 2, nextParticipantId := 2, nextMessageId := 1 }

def joinProbeState : ChatState :=
  { db := joinProbeDb,
    connectedUsers := [(10, bob)], userRooms := [(2, [10])],
    socketRooms := fun _ => [], inboxes := fun _ => [] }

/-- C8 counterexample: a connection whose identity has NO membership in the
public room 1 issues `join-room` — instead of failing with a not-a-member
error, the handler inserts a fresh active membership row and registers the
socket for the room's fan-out. -/
theorem subscribe_auto_joins_nonmember :
    findParticipantRow joinProbeState.db 1 2 = none ∧
    (handleJoinRoom joinProbeState bob 10 1 1).2 = JoinResult.joined ∧
    ((handleJoinRoom joinProbeState bob 10 1 1).1.db.participants.filter
      (fun p => p.userId == 2 && p.roomId == 1 && p.isActive)).length = 1 ∧
    10 ∈ (handleJoinRoom joinProbeState bob 10 1 1).1.socketRooms 1 := by
  decide

/-- C8 (amended): the socket `join-room` operation auto-joins rather than
requiring a prior Join: for an identity with no participant row it fails
(without inserting or subscribing) only when the room's kind is `private`;
for any other kind it inserts a fresh active `member` row and registers the
connection for the room's fan-out. -/
theorem joinRoom_without_row (st : ChatState) (u : SocketUser)
    (sid roomId now : Nat) (room : Room)
    (hr : findActiveRoom st.db roomId = some room)
    (hp : findParticipantRow st.db roomId u.id = none) :
    (room.type = "private" →
      handleJoinRoom st u sid roomId now = (st, JoinResult.accessDenied)) ∧
    (room.type ≠ "private" →
      (handleJoinRoom st u sid roomId now).2 = JoinResult.joined ∧
      (handleJoinRoom st u sid roomId now).1.db.participants =
        st.db.participants ++
          [⟨st.db.nextParticipantId, u.id, roomId, "member", now, some now, true⟩] ∧
      sid ∈ (handleJoinRoom st u sid roomId now).1.socketRooms roomId) := by
  constructor
  · intro hpriv
    simp [handleJoinRoom, hr, hp, hpriv]
  · intro hpriv
    have hb : (room.type == "private") = false := by
      simp only [beq_eq_false_iff_ne, ne_eq]
      exact hpriv
    simp [handleJoinRoom, hr, hp, hb, insertParticipant, subscribeSocket,
      mem_addIfAbsent]

/-- Witness for C8 (amended) at the concrete probe state. -/
theorem joinRoom_without_row_witness :
    (joinProbeRoom.type = "private" →
      handleJoinRoom joinProbeState bob 10 1 1 = (joinProbeState, JoinResult.accessDenied)) ∧
    (joinProbeRoom.type ≠ "private" →
      (handleJoinRoom joinProbeState bob 10 1 1).2 = JoinResult.joined ∧
      (handleJoinRoom joinProbeState bob 10 1 1).1.db.participants =
        joinProbeState.db.participants ++ [⟨2, 2, 1, "member", 1, some 1, true⟩] ∧
      10 ∈ (handleJoinRoom joinProbeState bob 10 1 1).1.socketRooms 1) :=
  joinRoom_without_row joinProbeState bob 10 1 1 joinProbeRoom (by decide) (by decide)

/-! ### C9 — leave and unsubscribe are idempotent -/

theorem updateParticipants_updateParticipants (db : Db) (sel : Participant → Bool)
    (f : Participant → Participant)
    (hsel : ∀ p, sel (f p) = sel p) (hidem : ∀ p, f (f p) = f p) :
    updateParticipants (updateParticipants db sel f) sel f =
      updateParticipants db sel f := by
  unfold updateParticipants
  have hmap : ∀ l : List Participant,
      (l.map (fun p => if sel p then f p else p)).map
        (fun p => if sel p then f p else p) =
      l.map (fun p => if sel p then f p else p) := by
    intro l
    rw [List.map_map]
    apply List.map_congr_left
    intro p _
    by_cases hs : sel p
    · simp [Function.comp, hs, hsel, hidem]
    · simp [Function.comp, hs]
  simp [hmap]

/-- C9: both leave operations and channel unsubscription are idempotent and
never delete membership rows.  (a) A second REST leave for the same
(user, room) changes nothing; (b) the REST leave always reports success;
(c)–(e) it and the socket leave handler preserve the number of participant
rows (rows are updated, never deleted); (d) running the socket leave handler
twice with the same timestamp equals running it once; (f) when the connection
is not subscribed, the handler's channel part (`socket.leave`) changes no
channel state. -/
theorem leave_and_unsubscribe_idempotent (db : Db) (st : ChatState)
    (u : SocketUser) (userId roomId sid now : Nat) :
    (restLeaveRoom (restLeaveRoom db userId roomId).1 userId roomId).1 =
      (restLeaveRoom db userId roomId).1 ∧
    (restLeaveRoom db userId roomId).2 = RestLeaveResult.ok ∧
    (restLeaveRoom db userId roomId).1.participants.length =
      db.participants.length ∧
    handleLeaveRoom (handleLeaveRoom st u sid roomId now) u sid roomId now =
      handleLeaveRoom st u sid roomId now ∧
    (handleLeaveRoom st u sid roomId now).db.participants.length =
      st.db.participants.length ∧
    (sid ∉ st.socketRooms roomId →
      (handleLeaveRoom st u sid roomId now).socketRooms = st.socketRooms) := by
  refine ⟨?_, rfl, ?_, ?_, ?_, ?_⟩
  · exact updateParticipants_updateParticipants db _ _ (fun p => rfl) (fun p => rfl)
  · simp [restLeaveRoom, updateParticipants]
  · unfold handleLeaveRoom unsubscribeSocket
    ext : 1
    · exact updateParticipants_updateParticipants st.db _ _
        (fun p => rfl) (fun p => rfl)
    · rfl
    · rfl
    · funext r
      by_cases hr : r = roomId
      · simp [hr, removeSid_idem]
      · simp [hr]
    · rfl
  · simp [handleLeaveRoom, unsubscribeSocket, updateParticipants]
  · intro hnm
    unfold handleLeaveRoom unsubscribeSocket
    funext r
    by_cases hr : r = roomId
    · subst hr
      simp [removeSid_eq_self_of_not_mem hnm]
    · simp [hr]

/-- Witness for C9 at a concrete store, state, user and room. -/
theorem leave_and_unsubscribe_idempotent_witness :
    (restLeaveRoom (restLeaveRoom capProbeDb 11 1).1 11 1).1 =
      (restLeaveRoom capProbeDb 11 1).1 ∧
    (restLeaveRoom capProbeDb 11 1).2 = RestLeaveResult.ok ∧
    (restLeaveRoom capProbeDb 11 1).1.participants.length =
      capProbeDb.participants.length ∧
    handleLeaveRoom (handleLeaveRoom joinProbeState bob 10 1 7) bob 10 1 7 =
      handleLeaveRoom joinProbeState bob 10 1 7 ∧
    (handleLeaveRoom joinProbeState bob 10 1 7).db.participants.length =
      joinProbeState.db.participants.length ∧
    (handleLeaveRoom joinProbeState bob 10 1 7).socketRooms =
      joinProbeState.socketRooms := by
  have h := leave_and_unsubscribe_idempotent capProbeDb joinProbeState bob 11 1 10 7
  exact ⟨h.1, h.2.1, h.2.2.1, h.2.2.2.1, h.2.2.2.2.1,
    h.2.2.2.2.2 (by decide)⟩

/-! ### C2 — presence versus active membership -/

/-- Alice creates public room 1; bob connects on socket 10 and joins the room
(both the membership row and the channel subscription). -/
def presencePreProbe : ChatState :=
  runTrace [alice, bob]
    [ .restCreate 1 "general" none (some "public") (some 10) 0 true,
      .connect 10 bob,
      .joinRoom 10 1 1 ]

/-- ... and then bob leaves via the REST route, which marks his membership
inactive but does not unsubscribe his live socket. -/
def presenceProbe : ChatState :=
  runTrace [alice, bob]
    [ .restCreate 1 "general" none (some "public") (some 10) 0 true,
      .connect 10 bob,
      .joinRoom 10 1 1,
      .restLeave 2 1 ]

/-- C2 counterexample: after the REST leave, bob (id 2) still appears among
the online users of room 1 even though he is no longer an active member —
`OnlineIn(R) ⊆ ListActiveMembers(R)` is violated, and a leave performed
through the REST route does NOT remove the identity from presence. -/
theorem presence_not_subset_of_active_members :
    2 ∈ (getOnlineUsersInRoom presenceProbe 1).map (fun v => v.id) ∧
    2 ∉ listActiveMembers presenceProbe.db 1 ∧
    (findParticipantRow presenceProbe.db 1 2).isSome := by
  decide

/-- C2 (amended): presence is bounded by channel subscription, not by active
membership.  The SOCKET leave handler does remove the leaving connection from
the room channel: afterwards that socket is no longer subscribed, and if no
other subscribed socket belongs to the same identity, the identity no longer
appears in `getOnlineUsersInRoom`.  (The REST leave, by the counterexample,
leaves presence untouched.) -/
theorem leaveRoom_clears_presence (st : ChatState) (u : SocketUser)
    (sid roomId now : Nat)
    (h : ∀ s ∈ st.socketRooms roomId, s ≠ sid → ownerId st s ≠ some u.id) :
    sid ∉ (handleLeaveRoom st u sid roomId now).socketRooms roomId ∧
    u.id ∉ (getOnlineUsersInRoom (handleLeaveRoom st u sid roomId now) roomId).map
      (fun v => v.id) := by
  have hsr : (handleLeaveRoom st u sid roomId now).socketRooms roomId =
      removeSid sid (st.socketRooms roomId) := by
    simp [handleLeaveRoom, unsubscribeSocket]
  constructor
  · rw [hsr]
    exact not_mem_removeSid_self
  · intro hmem
    rw [List.mem_map] at hmem
    obtain ⟨v, hv, hvid⟩ := hmem
    unfold getOnlineUsersInRoom at hv
    rw [List.mem_filterMap] at hv
    obtain ⟨s, hs, hfind⟩ := hv
    rw [hsr] at hs
    obtain ⟨hsmem, hsne⟩ := mem_removeSid.mp hs
    have hcu : (handleLeaveRoom st u sid roomId now).connectedUsers =
        st.connectedUsers := rfl
    rw [hcu] at hfind
    apply h s hsmem hsne
    unfold ownerId
    rw [hfind]
    exact congrArg some hvid

/-- Witness for C2 (amended): bob leaves room 1 through the socket handler;
his only subscribed socket disappears from the channel and he is gone from
presence. -/
theorem leaveRoom_clears_presence_witness :
    10 ∉ (handleLeaveRoom presencePreProbe bob 10 1 9).socketRooms 1 ∧
    2 ∉ (getOnlineUsersInRoom (handleLeaveRoom presencePreProbe bob 10 1 9) 1).map
      (fun v => v.id) :=
  leaveRoom_clears_presence presencePreProbe bob 10 1 9 (by decide)

/-! ### C3 — per-room delivery order follows persisted-id order

The delivery invariant: every delivered message was persisted first (it is in
the messages table), its id is below the serial counter, and each connection's
stream, restricted to one room, is strictly increasing in persisted id. -/

def Inv3 (st : ChatState) : Prop :=
  (∀ sid m, m ∈ st.inboxes sid → m.id < st.db.nextMessageId ∧ m ∈ st.db.messages) ∧
  (∀ sid R, ((st.inboxes sid).filter (fun m => m.roomId == R)).Pairwise
    (fun m1 m2 => m1.id < m2.id))

/-- The message row built and persisted by a successful `handleSendMessage`. -/
def mkSentMessage (st : ChatState) (user : SocketUser) (d : SendData) : Message :=
  ⟨st.db.nextMessageId, d.content, d.type.getD "text", user.id, d.roomId,
    d.replyToId, false, false⟩

theorem connect_frame (st : ChatState) (sid : Nat) (user : SocketUser) :
    (connect st sid user).db = st.db ∧ (connect st sid user).inboxes = st.inboxes := by
  unfold connect
  by_cases h : (mapFind st.connectedUsers sid).isSome <;> simp [h]

theorem disconnect_frame (st : ChatState) (sid : Nat) :
    (disconnect st sid).db = st.db ∧ (disconnect st sid).inboxes = st.inboxes := by
  unfold disconnect
  cases mapFind st.connectedUsers sid <;> simp

theorem handleJoinRoom_frame (st : ChatState) (u : SocketUser) (sid roomId now : Nat) :
    (handleJoinRoom st u sid roomId now).1.inboxes = st.inboxes ∧
    (handleJoinRoom st u sid roomId now).1.db.messages = st.db.messages ∧
    (handleJoinRoom st u sid roomId now).1.db.nextMessageId = st.db.nextMessageId := by
  unfold handleJoinRoom
  cases findActiveRoom st.db roomId with
  | none => exact ⟨rfl, rfl, rfl⟩
  | some room =>
    cases findParticipantRow st.db roomId u.id with
    | none =>
      by_cases h : (room.type == "private") = true
      · simp [h]
      · rw [Bool.not_eq_true] at h
        simp [h, insertParticipant, subscribeSocket]
    | some p => exact ⟨rfl, rfl, rfl⟩

theorem handleLeaveRoom_frame (st : ChatState) (u : SocketUser) (sid roomId now : Nat) :
    (handleLeaveRoom st u sid roomId now).inboxes = st.inboxes ∧
    (handleLeaveRoom st u sid roomId now).db.messages = st.db.messages ∧
    (handleLeaveRoom st u sid roomId now).db.nextMessageId = st.db.nextMessageId :=
  ⟨rfl, rfl, rfl⟩

theorem restJoinRoom_frame (db : Db) (userId roomId now : Nat) :
    (restJoinRoom db userId roomId now).1.messages = db.messages ∧
    (restJoinRoom db userId roomId now).1.nextMessageId = db.nextMessageId := by
  unfold restJoinRoom
  cases findActiveRoom db roomId with
  | none => exact ⟨rfl, rfl⟩
  | some room =>
    cases findParticipantRow db roomId userId with
    | some p =>
      by_cases h : p.isActive = true
      · simp [h, updateParticipants]
      · rw [Bool.not_eq_true] at h
        simp [h, updateParticipants]
    | none =>
      cases activeParticipantRows db roomId with
      | nil => exact ⟨rfl, rfl⟩
      | cons r rest =>
        by_cases h : room.maxParticipants ≤ r.id
        · simp [h]
        · simp [h, insertParticipant]

theorem restLeaveRoom_frame (db : Db) (userId roomId : Nat) :
    (restLeaveRoom db userId roomId).1.messages = db.messages ∧
    (restLeaveRoom db userId roomId).1.nextMessageId = db.nextMessageId :=
  ⟨rfl, rfl⟩

theorem restCreateRoom_frame (db : Db) (userId : Nat) (name : String)
    (descr : Option String) (ty : Option String) (maxP : Option Nat) (now : Nat)
    (ok : Bool) :
    (restCreateRoom db userId name descr ty maxP now ok).1.messages = db.messages ∧
    (restCreateRoom db userId name descr ty maxP now ok).1.nextMessageId =
      db.nextMessageId := by
  unfold restCreateRoom
  by_cases h : validRoomParams name descr ty = true
  · cases ok <;> simp [h, insertParticipant]
  · rw [Bool.not_eq_true] at h
    simp [h]

theorem resolveDirectRoom_frame (db : Db) (a b : SocketUser) (now : Nat) :
    (resolveDirectRoom db a b now).1.messages = db.messages ∧
    (resolveDirectRoom db a b now).1.nextMessageId = db.nextMessageId := by
  cases hh : (db.rooms.filter
      (fun r => r.name == dmRoomName a b && r.type == "direct")).head? with
  | none => simp [resolveDirectRoom, hh]
  | some room => simp [resolveDirectRoom, hh]

theorem foldl_subscribe_frame (r : Nat) (l : List Nat) :
    ∀ s0 : ChatState,
      (l.foldl (fun s sid => subscribeSocket s sid r) s0).db = s0.db ∧
      (l.foldl (fun s sid => subscribeSocket s sid r) s0).inboxes = s0.inboxes := by
  induction l with
  | nil => intro s0; exact ⟨rfl, rfl⟩
  | cons sid rest ih =>
    intro s0
    simpa [List.foldl] using ih (subscribeSocket s0 sid r)

/-- Case analysis of a send: either it was rejected and the state is
untouched, or the fresh row (id = serial counter) was appended to the table
and to some of the inboxes, with the counter bumped. -/
theorem handleSendMessage_state (st : ChatState) (u : SocketUser) (d : SendData) :
    (handleSendMessage st u d).1 = st ∨
    ((handleSendMessage st u d).1.db.messages =
        st.db.messages ++ [mkSentMessage st u d] ∧
      (handleSendMessage st u d).1.db.nextMessageId = st.db.nextMessageId + 1 ∧
      ∀ sid, (handleSendMessage st u d).1.inboxes sid = st.inboxes sid ∨
        (handleSendMessage st u d).1.inboxes sid =
          st.inboxes sid ++ [mkSentMessage st u d]) := by
  cases hp : findActiveParticipant st.db d.roomId u.id with
  | none =>
    left
    simp [handleSendMessage, hp]
  | some p =>
    right
    refine ⟨by simp [handleSendMessage, hp, deliverToRoom, mkSentMessage],
      by simp [handleSendMessage, hp, deliverToRoom], ?_⟩
    intro sid
    by_cases hs : sid ∈ st.socketRooms d.roomId
    · right
      simp [handleSendMessage, hp, deliverToRoom, mkSentMessage, hs]
    · left
      simp [handleSendMessage, hp, deliverToRoom, mkSentMessage, hs]

theorem Inv3_of_frame (st st' : ChatState) (hi : st'.inboxes = st.inboxes)
    (hm : st'.db.messages = st.db.messages)
    (hn : st'.db.nextMessageId = st.db.nextMessageId) (h : Inv3 st) : Inv3 st' := by
  constructor
  · intro sid m hmem
    rw [hi] at hmem
    rw [hn, hm]
    exact h.1 sid m hmem
  · intro sid R
    rw [hi]
    exact h.2 sid R

theorem Inv3_append (st st' : ChatState) (m : Message)
    (hmsg : st'.db.messages = st.db.messages ++ [m])
    (hid : m.id = st.db.nextMessageId)
    (hnext : st'.db.nextMessageId = st.db.nextMessageId + 1)
    (hinb : ∀ sid, st'.inboxes sid = st.inboxes sid ∨
      st'.inboxes sid = st.inboxes sid ++ [m])
    (h : Inv3 st) : Inv3 st' := by
  constructor
  · intro sid m' hmem
    rw [hnext, hmsg]
    rcases hinb sid with he | he <;> rw [he] at hmem
    · obtain ⟨h1, h2⟩ := h.1 sid m' hmem
      exact ⟨Nat.lt_succ_of_lt h1, List.mem_append_left _ h2⟩
    · rcases List.mem_append.mp hmem with hold | hnew
      · obtain ⟨h1, h2⟩ := h.1 sid m' hold
        exact ⟨Nat.lt_succ_of_lt h1, List.mem_append_left _ h2⟩
      · rw [List.mem_singleton] at hnew
        subst hnew
        exact ⟨hid ▸ Nat.lt_succ_self _, List.mem_append_right _ (List.mem_singleton_self m')⟩
  · intro sid R
    rcases hinb sid with he | he <;> rw [he]
    · exact h.2 sid R
    · rw [List.filter_append]
      rw [List.pairwise_append]
      refine ⟨h.2 sid R, ?_, ?_⟩
      · have hsingle : List.filter (fun mm => mm.roomId == R) [m] = [] ∨
            List.filter (fun mm => mm.roomId == R) [m] = [m] := by
          by_cases hc : (m.roomId == R) = true
          · right; simp [List.filter, hc]
          · left; simp [List.filter, hc]
        rcases hsingle with hh | hh <;> rw [hh]
        · exact List.Pairwise.nil
        · exact List.pairwise_singleton _ _
      · intro a ha b hb
        have hamem : a ∈ st.inboxes sid := List.mem_of_mem_filter ha
        have hbm : b = m := by
          have := List.mem_of_mem_filter hb
          rwa [List.mem_singleton] at this
        subst hbm
        rw [hid]
        exact (h.1 sid a hamem).1

theorem Inv3_initState (usersList : List SocketUser) : Inv3 (initState usersList) := by
  constructor
  · intro sid m hmem
    exact absurd hmem (List.not_mem_nil m)
  · intro sid R
    exact List.Pairwise.nil

theorem Inv3_step (st : ChatState) (ev : Ev) (h : Inv3 st) : Inv3 (step st ev) := by
  cases ev with
  | connect sid user =>
    obtain ⟨hdb, hin⟩ := connect_frame st sid user
    exact Inv3_of_frame st (connect st sid user) hin
      (congrArg Db.messages hdb) (congrArg Db.nextMessageId hdb) h
  | disconnect sid =>
    obtain ⟨hdb, hin⟩ := disconnect_frame st sid
    exact Inv3_of_frame st (disconnect st sid) hin
      (congrArg Db.messages hdb) (congrArg Db.nextMessageId hdb) h
  | joinRoom sid roomId now =>
    show Inv3 (match mapFind st.connectedUsers sid with
      | none => st
      | some user => (handleJoinRoom st user sid roomId now).1)
    cases mapFind st.connectedUsers sid with
    | none => exact h
    | some user =>
      obtain ⟨h1, h2, h3⟩ := handleJoinRoom_frame st user sid roomId now
      exact Inv3_of_frame st _ h1 h2 h3 h
  | leaveRoom sid roomId now =>
    show Inv3 (match mapFind st.connectedUsers sid with
      | none => st
      | some user => handleLeaveRoom st user sid roomId now)
    cases mapFind st.connectedUsers sid with
    | none => exact h
    | some user =>
      obtain ⟨h1, h2, h3⟩ := handleLeaveRoom_frame st user sid roomId now
      exact Inv3_of_frame st _ h1 h2 h3 h
  | sendMsg sid d =>
    show Inv3 (match mapFind st.connectedUsers sid with
      | none => st
      | some user => (handleSendMessage st user d).1)
    cases mapFind st.connectedUsers sid with
    | none => exact h
    | some user =>
      show Inv3 (handleSendMessage st user d).1
      rcases handleSendMessage_state st user d with hsame | ⟨hmsg, hnext, hinb⟩
      · rw [hsame]; exact h
      · exact Inv3_append st _ (mkSentMessage st user d) hmsg rfl hnext hinb h
  | privateMsg sid recipientId content now =>
    show Inv3 (match mapFind st.connectedUsers sid with
      | none => st
      | some user => (handlePrivateMessage st user recipientId content now).1)
    cases mapFind st.connectedUsers sid with
    | none => exact h
    | some user =>
      show Inv3 (handlePrivateMessage st user recipientId content now).1
      unfold handlePrivateMessage
      cases findUserById st.db recipientId with
      | none => exact h
      | some recipient =>
        have hres := resolveDirectRoom_frame st.db user recipient now
        have hmid : Inv3 { st with db := (resolveDirectRoom st.db user recipient now).1 } :=
          Inv3_of_frame st _ rfl hres.1 hres.2 h
        set stMid := { st with db := (resolveDirectRoom st.db user recipient now).1 }
        set d : SendData :=
          ⟨(resolveDirectRoom st.db user recipient now).2.id, content, some "text", none⟩
        have hsent : Inv3 (handleSendMessage stMid user d).1 := by
          rcases handleSendMessage_state stMid user d with hsame | ⟨hmsg, hnext, hinb⟩
          · rw [hsame]; exact hmid
          · exact Inv3_append stMid _ (mkSentMessage stMid user d) hmsg rfl hnext hinb hmid
        have hfold := foldl_subscribe_frame
          (resolveDirectRoom st.db user recipient now).2.id
          ((mapFind (handleSendMessage stMid user d).1.userRooms recipientId).getD [])
          (handleSendMessage stMid user d).1
        exact Inv3_of_frame _ _ hfold.2 (by rw [hfold.1]) (by rw [hfold.1]) hsent
  | restCreate userId name descr ty maxP now ok =>
    obtain ⟨h1, h2⟩ := restCreateRoom_frame st.db userId name descr ty maxP now ok
    exact Inv3_of_frame st _ rfl h1 h2 h
  | restJoin userId roomId now =>
    obtain ⟨h1, h2⟩ := restJoinRoom_frame st.db userId roomId now
    exact Inv3_of_frame st _ rfl h1 h2 h
  | restLeave userId roomId =>
    obtain ⟨h1, h2⟩ := restLeaveRoom_frame st.db userId roomId
    exact Inv3_of_frame st _ rfl h1 h2 h

theorem Inv3_runTrace (usersList : List SocketUser) (evs : List Ev) :
    Inv3 (runTrace usersList evs) := by
  unfold runTrace
  suffices hgen : ∀ s : ChatState, Inv3 s → Inv3 (evs.foldl step s) from
    hgen _ (Inv3_initState usersList)
  induction evs with
  | nil => exact fun s hs => hs
  | cons e rest ih =>
    intro s hs
    exact ih _ (Inv3_step s e hs)

/-- C3: in every reachable state, each connection's stream of delivered
messages, restricted to one room, is strictly increasing in persisted id —
so a connection that received two messages of the same room received them in
persisted-id order — and every delivered message is present in the messages
table (persistence precedes fan-out).  Handlers are modelled as atomic, so
this is the sequential interleaving of whole operations. -/
theorem per_room_delivery_follows_persisted_order (usersList : List SocketUser)
    (evs : List Ev) (sid R : Nat) :
    (((runTrace usersList evs).inboxes sid).filter
      (fun m => m.roomId == R)).Pairwise (fun m1 m2 => m1.id < m2.id) ∧
    ∀ m ∈ (runTrace usersList evs).inboxes sid,
      m ∈ (runTrace usersList evs).db.messages := by
  have h := Inv3_runTrace usersList evs
  exact ⟨h.2 sid R, fun m hm => (h.1 sid m hm).2⟩

/-! ### C10 — consistency of the connection-registry maps

`RegInv cu ur` is the mutual-consistency invariant of
`connectedUsers : Map<socketId, SocketUser>` and
`userRooms : Map<userId, Set<socketId>>`: both key sets are duplicate-free,
every `userRooms` entry is a non-empty duplicate-free set whose sockets are
all connected and owned by that entry's user, and every connected socket is
recorded in its owner's entry (hence, keys being duplicate-free, in exactly
one entry). -/

def RegInv (cu : List (Nat × SocketUser)) (ur : List (Nat × List Nat)) : Prop :=
  keysNodup cu ∧ keysNodup ur ∧
  (∀ uid l, mapFind ur uid = some l → l ≠ [] ∧ l.Nodup) ∧
  (∀ uid l sid, mapFind ur uid = some l → sid ∈ l →
    ∃ u, mapFind cu sid = some u ∧ u.id = uid) ∧
  (∀ sid u, mapFind cu sid = some u → ∃ l, mapFind ur u.id = some l ∧ sid ∈ l)

def RegistryInv (st : ChatState) : Prop :=
  RegInv st.connectedUsers st.userRooms

theorem RegInv_connect_new {cu : List (Nat × SocketUser)}
    {ur : List (Nat × List Nat)} {sid : Nat} {user : SocketUser}
    (hnone : mapFind cu sid = none) (hurf : mapFind ur user.id = none)
    (h : RegInv cu ur) :
    RegInv (mapSet cu sid user) (mapSet ur user.id [sid]) := by
  obtain ⟨hcu, hur, hne, hown, hcov⟩ := h
  refine ⟨keysNodup_mapSet _ _ hcu, keysNodup_mapSet _ _ hur, ?_, ?_, ?_⟩
  · intro uid l hl
    rw [mapFind_mapSet] at hl
    by_cases huid : user.id = uid
    · rw [if_pos huid] at hl
      obtain rfl : [sid] = l := Option.some.inj hl
      exact ⟨by simp, List.nodup_singleton sid⟩
    · rw [if_neg huid] at hl
      exact hne uid l hl
  · intro uid l sid' hl hsid'
    rw [mapFind_mapSet] at hl
    by_cases huid : user.id = uid
    · rw [if_pos huid] at hl
      obtain rfl : [sid] = l := Option.some.inj hl
      rw [List.mem_singleton] at hsid'
      subst hsid'
      exact ⟨user, mapFind_mapSet_self cu sid' user, huid⟩
    · rw [if_neg huid] at hl
      obtain ⟨u, hu, huid'⟩ := hown uid l sid' hl hsid'
      have hsne : ¬ sid = sid' := by
        intro he
        rw [← he, hnone] at hu
        exact Option.noConfusion hu
      exact ⟨u, by rw [mapFind_mapSet_ne cu user hsne]; exact hu, huid'⟩
  · intro sid' u hu
    rw [mapFind_mapSet] at hu
    by_cases hs : sid = sid'
    · rw [if_pos hs] at hu
      obtain rfl : user = u := Option.some.inj hu
      refine ⟨[sid], mapFind_mapSet_self ur user.id [sid], ?_⟩
      rw [← hs]
      exact List.mem_singleton_self sid
    · rw [if_neg hs] at hu
      obtain ⟨l, hl, hmem⟩ := hcov sid' u hu
      by_cases huid : u.id = user.id
      · rw [huid, hurf] at hl
        exact Option.noConfusion hl
      · refine ⟨l, ?_, hmem⟩
        rw [mapFind_mapSet_ne ur [sid] (fun he => huid he.symm)]
        exact hl

theorem RegInv_connect_add {cu : List (Nat × SocketUser)}
    {ur : List (Nat × List Nat)} {sid : Nat} {user : SocketUser} {l : List Nat}
    (hnone : mapFind cu sid = none) (hurf : mapFind ur user.id = some l)
    (h : RegInv cu ur) :
    RegInv (mapSet cu sid user) (mapSet ur user.id (addIfAbsent sid l)) := by
  obtain ⟨hcu, hur, hne, hown, hcov⟩ := h
  refine ⟨keysNodup_mapSet _ _ hcu, keysNodup_mapSet _ _ hur, ?_, ?_, ?_⟩
  · intro uid l₁ hl₁
    rw [mapFind_mapSet] at hl₁
    by_cases huid : user.id = uid
    · rw [if_pos huid] at hl₁
      obtain rfl : addIfAbsent sid l = l₁ := Option.some.inj hl₁
      exact ⟨addIfAbsent_ne_nil sid l, nodup_addIfAbsent (hne user.id l hurf).2⟩
    · rw [if_neg huid] at hl₁
      exact hne uid l₁ hl₁
  · intro uid l₁ sid' hl₁ hsid'
    rw [mapFind_mapSet] at hl₁
    by_cases huid : user.id = uid
    · rw [if_pos huid] at hl₁
      obtain rfl : addIfAbsent sid l = l₁ := Option.some.inj hl₁
      rcases mem_addIfAbsent.mp hsid' with hin | rfl
      · obtain ⟨u, hu, huid'⟩ := hown uid l sid' (huid ▸ hurf) hin
        have hsne : ¬ sid = sid' := by
          intro he
          rw [← he, hnone] at hu
          exact Option.noConfusion hu
        exact ⟨u, by rw [mapFind_mapSet_ne cu user hsne]; exact hu, huid'⟩
      · exact ⟨user, mapFind_mapSet_self cu sid' user, huid⟩
    · rw [if_neg huid] at hl₁
      obtain ⟨u, hu, huid'⟩ := hown uid l₁ sid' hl₁ hsid'
      have hsne : ¬ sid = sid' := by
        intro he
        rw [← he, hnone] at hu
        exact Option.noConfusion hu
      exact ⟨u, by rw [mapFind_mapSet_ne cu user hsne]; exact hu, huid'⟩
  · intro sid' u hu
    rw [mapFind_mapSet] at hu
    by_cases hs : sid = sid'
    · rw [if_pos hs] at hu
      obtain rfl : user = u := Option.some.inj hu
      refine ⟨addIfAbsent sid l, mapFind_mapSet_self ur user.id _, ?_⟩
      rw [← hs]
      exact mem_addIfAbsent.mpr (Or.inr rfl)
    · rw [if_neg hs] at hu
      obtain ⟨l₀, hl₀, hmem⟩ := hcov sid' u hu
      by_cases huid : u.id = user.id
      · have : l₀ = l := by
          rw [huid, hurf] at hl₀
          exact (Option.some.inj hl₀).symm
        subst this
        refine ⟨addIfAbsent sid l₀, ?_, mem_addIfAbsent.mpr (Or.inl hmem)⟩
        rw [huid]
        exact mapFind_mapSet_self ur user.id _
      · refine ⟨l₀, ?_, hmem⟩
        rw [mapFind_mapSet_ne ur _ (fun he => huid he.symm)]
        exact hl₀

theorem RegInv_disconnect_erase {cu : List (Nat × SocketUser)}
    {ur : List (Nat × List Nat)} {sid : Nat} {user : SocketUser} {l : List Nat}
    (hm : mapFind cu sid = some user) (hurf : mapFind ur user.id = some l)
    (hempty : removeSid sid l = []) (h : RegInv cu ur) :
    RegInv (mapErase cu sid) (mapErase ur user.id) := by
  obtain ⟨hcu, hur, hne, hown, hcov⟩ := h
  refine ⟨keysNodup_mapErase _ hcu, keysNodup_mapErase _ hur, ?_, ?_, ?_⟩
  · intro uid l₁ hl₁
    rw [mapFind_mapErase] at hl₁
    by_cases huid : user.id = uid
    · rw [if_pos huid] at hl₁
      exact Option.noConfusion hl₁
    · rw [if_neg huid] at hl₁
      exact hne uid l₁ hl₁
  · intro uid l₁ sid' hl₁ hsid'
    rw [mapFind_mapErase] at hl₁
    by_cases huid : user.id = uid
    · rw [if_pos huid] at hl₁
      exact Option.noConfusion hl₁
    · rw [if_neg huid] at hl₁
      obtain ⟨u, hu, huid'⟩ := hown uid l₁ sid' hl₁ hsid'
      have hsne : ¬ sid = sid' := by
        intro he
        rw [← he, hm] at hu
        obtain rfl : user = u := Option.some.inj hu
        exact huid (huid' ▸ rfl)
      exact ⟨u, by rw [mapFind_mapErase_ne cu hsne]; exact hu, huid'⟩
  · intro sid' u hu
    rw [mapFind_mapErase] at hu
    by_cases hs : sid = sid'
    · rw [if_pos hs] at hu
      exact Option.noConfusion hu
    · rw [if_neg hs] at hu
      obtain ⟨l₀, hl₀, hmem⟩ := hcov sid' u hu
      by_cases huid : u.id = user.id
      · have : l₀ = l := by
          rw [huid, hurf] at hl₀
          exact (Option.some.inj hl₀).symm
        subst this
        have : sid' ∈ removeSid sid l₀ :=
          mem_removeSid.mpr ⟨hmem, fun he => hs he.symm⟩
        rw [hempty] at this
        exact absurd this (List.not_mem_nil sid')
      · refine ⟨l₀, ?_, hmem⟩
        rw [mapFind_mapErase_ne ur (fun he => huid he.symm)]
        exact hl₀

theorem RegInv_disconnect_set {cu : List (Nat × SocketUser)}
    {ur : List (Nat × List Nat)} {sid : Nat} {user : SocketUser} {l : List Nat}
    (hm : mapFind cu sid = some user) (hurf : mapFind ur user.id = some l)
    (hne' : removeSid sid l ≠ []) (h : RegInv cu ur) :
    RegInv (mapErase cu sid) (mapSet ur user.id (removeSid sid l)) := by
  obtain ⟨hcu, hur, hne, hown, hcov⟩ := h
  refine ⟨keysNodup_mapErase _ hcu, keysNodup_mapSet _ _ hur, ?_, ?_, ?_⟩
  · intro uid l₁ hl₁
    rw [mapFind_mapSet] at hl₁
    by_cases huid : user.id = uid
    · rw [if_pos huid] at hl₁
      obtain rfl : removeSid sid l = l₁ := Option.some.inj hl₁
      exact ⟨hne', nodup_removeSid (hne user.id l hurf).2⟩
    · rw [if_neg huid] at hl₁
      exact hne uid l₁ hl₁
  · intro uid l₁ sid' hl₁ hsid'
    rw [mapFind_mapSet] at hl₁
    by_cases huid : user.id = uid
    · rw [if_pos huid] at hl₁
      obtain rfl : removeSid sid l = l₁ := Option.some.inj hl₁
      obtain ⟨hin, hsne⟩ := mem_removeSid.mp hsid'
      obtain ⟨u, hu, huid'⟩ := hown uid l sid' (huid ▸ hurf) hin
      exact ⟨u, by rw [mapFind_mapErase_ne cu (fun he => hsne he.symm)]; exact hu,
        huid'⟩
    · rw [if_neg huid] at hl₁
      obtain ⟨u, hu, huid'⟩ := hown uid l₁ sid' hl₁ hsid'
      have hsne : ¬ sid = sid' := by
        intro he
        rw [← he, hm] at hu
        obtain rfl : user = u := Option.some.inj hu
        exact huid (huid' ▸ rfl)
      exact ⟨u, by rw [mapFind_mapErase_ne cu hsne]; exact hu, huid'⟩
  · intro sid' u hu
    rw [mapFind_mapErase] at hu
    by_cases hs : sid = sid'
    · rw [if_pos hs] at hu
      exact Option.noConfusion hu
    · rw [if_neg hs] at hu
      obtain ⟨l₀, hl₀, hmem⟩ := hcov sid' u hu
      by_cases huid : u.id = user.id
      · have : l₀ = l := by
          rw [huid, hurf] at hl₀
          exact (Option.some.inj hl₀).symm
        subst this
        refine ⟨removeSid sid l₀, ?_, mem_removeSid.mpr ⟨hmem, fun he => hs he.symm⟩⟩
        rw [huid]
        exact mapFind_mapSet_self ur user.id _
      · refine ⟨l₀, ?_, hmem⟩
        rw [mapFind_mapSet_ne ur _ (fun he => huid he.symm)]
        exact hl₀

theorem handleJoinRoom_registry (st : ChatState) (u : SocketUser)
    (sid roomId now : Nat) :
    (handleJoinRoom st u sid roomId now).1.connectedUsers = st.connectedUsers ∧
    (handleJoinRoom st u sid roomId now).1.userRooms = st.userRooms := by
  unfold handleJoinRoom
  cases findActiveRoom st.db roomId with
  | none => exact ⟨rfl, rfl⟩
  | some room =>
    cases findParticipantRow st.db roomId u.id with
    | none =>
      by_cases hb : (room.type == "private") = true
      · simp [hb]
      · rw [Bool.not_eq_true] at hb
        simp [hb, subscribeSocket]
    | some p => exact ⟨rfl, rfl⟩

theorem handleSendMessage_registry (st : ChatState) (u : SocketUser) (d : SendData) :
    (handleSendMessage st u d).1.connectedUsers = st.connectedUsers ∧
    (handleSendMessage st u d).1.userRooms = st.userRooms := by
  cases hp : findActiveParticipant st.db d.roomId u.id with
  | none => simp [handleSendMessage, hp]
  | some p => simp [handleSendMessage, hp, deliverToRoom]

theorem foldl_subscribe_registry (r : Nat) (l : List Nat) :
    ∀ s0 : ChatState,
      (l.foldl (fun s sid => subscribeSocket s sid r) s0).connectedUsers =
        s0.connectedUsers ∧
      (l.foldl (fun s sid => subscribeSocket s sid r) s0).userRooms = s0.userRooms := by
  induction l with
  | nil => intro s0; exact ⟨rfl, rfl⟩
  | cons sid rest ih =>
    intro s0
    simpa [List.foldl] using ih (subscribeSocket s0 sid r)

theorem handlePrivateMessage_registry (st : ChatState) (u : SocketUser)
    (rid : Nat) (content : String) (now : Nat) :
    (handlePrivateMessage st u rid content now).1.connectedUsers = st.connectedUsers ∧
    (handlePrivateMessage st u rid content now).1.userRooms = st.userRooms := by
  cases hf : findUserById st.db rid with
  | none => simp [handlePrivateMessage, hf]
  | some recipient =>
    simp only [handlePrivateMessage, hf]
    constructor
    · rw [(foldl_subscribe_registry _ _ _).1, (handleSendMessage_registry _ _ _).1]
    · rw [(foldl_subscribe_registry _ _ _).2, (handleSendMessage_registry _ _ _).2]

theorem RegistryInv_initState (usersList : List SocketUser) :
    RegistryInv (initState usersList) := by
  refine ⟨List.nodup_nil, List.nodup_nil, ?_, ?_, ?_⟩
  · intro uid l hl
    exact Option.noConfusion hl
  · intro uid l sid hl
    exact absurd hl (by intro h; exact Option.noConfusion h)
  · intro sid u hu
    exact Option.noConfusion hu

theorem RegistryInv_step (st : ChatState) (ev : Ev) (h : RegistryInv st) :
    RegistryInv (step st ev) := by
  cases ev with
  | connect sid user =>
    show RegistryInv (connect st sid user)
    unfold connect
    by_cases hfresh : (mapFind st.connectedUsers sid).isSome
    · rw [if_pos hfresh]; exact h
    · rw [if_neg hfresh]
      have hnone : mapFind st.connectedUsers sid = none := by
        cases hmf : mapFind st.connectedUsers sid
        · rfl
        · rw [hmf] at hfresh; simp at hfresh
      cases hurf : mapFind st.userRooms user.id with
      | none => exact RegInv_connect_new hnone hurf h
      | some l => exact RegInv_connect_add hnone hurf h
  | disconnect sid =>
    show RegistryInv (disconnect st sid)
    unfold disconnect
    cases hm : mapFind st.connectedUsers sid with
    | none => exact h
    | some user =>
      show RegistryInv
        { st with
          connectedUsers := mapErase st.connectedUsers sid,
          userRooms :=
            match mapFind st.userRooms user.id with
            | none => st.userRooms
            | some l =>
              if removeSid sid l = [] then mapErase st.userRooms user.id
              else mapSet st.userRooms user.id (removeSid sid l),
          socketRooms := fun r => removeSid sid (st.socketRooms r) }
      cases hurf : mapFind st.userRooms user.id with
      | none =>
        obtain ⟨l, hl, _⟩ := h.2.2.2.2 sid user hm
        rw [hurf] at hl
        exact Option.noConfusion hl
      | some l =>
        show RegistryInv
          { st with
            connectedUsers := mapErase st.connectedUsers sid,
            userRooms :=
              if removeSid sid l = [] then mapErase st.userRooms user.id
              else mapSet st.userRooms user.id (removeSid sid l),
            socketRooms := fun r => removeSid sid (st.socketRooms r) }
        by_cases hempty : removeSid sid l = []
        · rw [if_pos hempty]
          exact RegInv_disconnect_erase hm hurf hempty h
        · rw [if_neg hempty]
          exact RegInv_disconnect_set hm hurf hempty h
  | joinRoom sid roomId now =>
    show RegistryInv (match mapFind st.connectedUsers sid with
      | none => st
      | some user => (handleJoinRoom st user sid roomId now).1)
    cases mapFind st.connectedUsers sid with
    | none => exact h
    | some user =>
      have hreg := handleJoinRoom_registry st user sid roomId now
      show RegistryInv (handleJoinRoom st user sid roomId now).1
      unfold RegistryInv
      rw [hreg.1, hreg.2]
      exact h
  | leaveRoom sid roomId now =>
    show RegistryInv (match mapFind st.connectedUsers sid with
      | none => st
      | some user => handleLeaveRoom st user sid roomId now)
    cases mapFind st.connectedUsers sid with
    | none => exact h
    | some user => exact h
  | sendMsg sid d =>
    show RegistryInv (match mapFind st.connectedUsers sid with
      | none => st
      | some user => (handleSendMessage st user d).1)
    cases mapFind st.connectedUsers sid with
    | none => exact h
    | some user =>
      have hreg := handleSendMessage_registry st user d
      show RegistryInv (handleSendMessage st user d).1
      unfold RegistryInv
      rw [hreg.1, hreg.2]
      exact h
  | privateMsg sid recipientId content now =>
    show RegistryInv (match mapFind st.connectedUsers sid with
      | none => st
      | some user => (handlePrivateMessage st user recipientId content now).1)
    cases mapFind st.connectedUsers sid with
    | none => exact h
    | some user =>
      have hreg := handlePrivateMessage_registry st user recipientId content now
      show RegistryInv (handlePrivateMessage st user recipientId content now).1
      unfold RegistryInv
      rw [hreg.1, hreg.2]
      exact h
  | restCreate userId name descr ty maxP now ok => exact h
  | restJoin userId roomId now => exact h
  | restLeave userId roomId => exact h

theorem RegistryInv_runTrace (usersList : List SocketUser) (evs : List Ev) :
    RegistryInv (runTrace usersList evs) := by
  unfold runTrace
  suffices hgen : ∀ s : ChatState, RegistryInv s → RegistryInv (evs.foldl step s) from
    hgen _ (RegistryInv_initState usersList)
  induction evs with
  | nil => exact fun s hs => hs
  | cons e rest ih =>
    intro s hs
    exact ih _ (RegistryInv_step s e hs)

/-- Under the invariant, a user's `userRooms` entry is absent exactly when no
live socket belongs to the user, and `getUserConnectionCount` is 0 in exactly
the same situation. -/
theorem RegistryInv_count (st : ChatState) (h : RegistryInv st) (uid : Nat) :
    (mapFind st.userRooms uid = none ↔
      ∀ sid u, mapFind st.connectedUsers sid = some u → u.id ≠ uid) ∧
    (getUserConnectionCount st uid = 0 ↔
      ∀ sid u, mapFind st.connectedUsers sid = some u → u.id ≠ uid) := by
  obtain ⟨hcu, hur, hne, hown, hcov⟩ := h
  have hmain : mapFind st.userRooms uid = none ↔
      ∀ sid u, mapFind st.connectedUsers sid = some u → u.id ≠ uid := by
    constructor
    · intro hnone sid u hu huid
      obtain ⟨l, hl, _⟩ := hcov sid u hu
      rw [huid, hnone] at hl
      exact Option.noConfusion hl
    · intro hall
      cases hf : mapFind st.userRooms uid with
      | none => rfl
      | some l =>
        cases l with
        | nil => exact absurd rfl (hne uid [] hf).1
        | cons s rest =>
          obtain ⟨u, hu, huid⟩ := hown uid (s :: rest) s hf (List.mem_cons_self s rest)
          exact absurd huid (hall s u hu)
  refine ⟨hmain, ?_⟩
  unfold getUserConnectionCount
  cases hf : mapFind st.userRooms uid with
  | none =>
    simpa [hf] using hmain
  | some l =>
    constructor
    · intro hlen
      exact absurd (List.length_eq_zero.mp hlen) (hne uid l hf).1
    · intro hall
      have : mapFind st.userRooms uid = none := hmain.mpr hall
      rw [hf] at this
      exact Option.noConfusion this

/-- C10: in every reachable state the two registry maps are mutually
consistent — `RegInv`: duplicate-free keys, every `userRooms` entry a
non-empty duplicate-free socket set whose sockets are connected and owned by
that user, every connected socket recorded in its owner's entry — and a
user's entry is removed exactly when their last socket disconnected, so
`getUserConnectionCount` returns 0 precisely when the user has no live
connection. -/
theorem registry_maps_consistent (usersList : List SocketUser) (evs : List Ev) :
    RegistryInv (runTrace usersList evs) ∧
    ∀ uid,
      (mapFind (runTrace usersList evs).userRooms uid = none ↔
        ∀ sid u, mapFind (runTrace usersList evs).connectedUsers sid = some u →
          u.id ≠ uid) ∧
      (getUserConnectionCount (runTrace usersList evs) uid = 0 ↔
        ∀ sid u, mapFind (runTrace usersList evs).connectedUsers sid = some u →
          u.id ≠ uid) := by
  have h := RegistryInv_runTrace usersList evs
  exact ⟨h, fun uid => RegistryInv_count _ h uid⟩

/-- Sanity check that the fan-out model is not vacuous: bob's subscribed
connection actually receives alice's two messages, in persisted-id order,
and both rows are in the messages table. -/
theorem delivery_model_sanity :
    (runTrace [alice, bob]
      [ .restCreate 1 "general" none (some "public") (some 10) 0 true,
        .connect 10 bob,
        .connect 11 alice,
        .joinRoom 10 1 1,
        .joinRoom 11 1 2,
        .sendMsg 11 ⟨1, "hello", none, none⟩,
        .sendMsg 11 ⟨1, "world", none, none⟩ ]).inboxes 10 =
      [⟨1, "hello", "text", 1, 1, none, false, false⟩,
       ⟨2, "world", "text", 1, 1, none, false, false⟩] := by
  decide

/-- Witness for C5 (amended), at a concrete store and payload. -/
theorem send_persists_any_payload_witness :
    (handleSendMessage replyProbeState alice ⟨2, "anything goes", none, some 999⟩).2 =
      SendResult.sent ⟨2, "anything goes", "text", 1, 2, some 999, false, false⟩ ∧
    (handleSendMessage replyProbeState alice ⟨2, "anything goes", none, some 999⟩).1.db.messages =
      replyProbeDb.messages ++ [⟨2, "anything goes", "text", 1, 2, some 999, false, false⟩] :=
  send_persists_any_payload replyProbeState alice ⟨2, "anything goes", none, some 999⟩
    ⟨1, 1, 2, "member", 0, none, true⟩ (by decide)

end Chat
